import Mathlib

/-!
Verification development for the IaC-Studio Deployment Provisioning Engine.

The Go sources are embedded shallowly:
* the graph compiler (internal/provisioner/compiler) as pure Lean functions;
* the Terraform executor / orchestrator (internal/provisioner) as a
  deterministic state-passing model driven by an oracle describing the
  outcomes of the external tool invocations and filesystem calls;
* the database state store and the async task handlers
  (internal/provisioner/terraform) as pure functions over an association-list
  repository, emitting a trace of observable effects.
-/

set_option autoImplicit false

deriving instance DecidableEq for Except

namespace IaCStudio

/-- JSON-like dynamic value, modelling Go's interface\x7b\x7d as produced by
json.Unmarshal into map[string]interface\x7b\x7d (numbers abstracted to Int;
no claim depends on numeric rendering). -/
inductive JValue where
  | null
  | str (s : String)
  | bool (b : Bool)
  | num (n : Int)
  | arr (xs : List JValue)
  | obj (fields : List (String × JValue))

/-- Outcome of a Go call: normal value, error return, or runtime crash
(an unchecked type-assertion panic). -/
inductive COutcome (α : Type) where
  | ok (a : α)
  | err (msg : String)
  | crash (msg : String)
deriving DecidableEq

mutual
/-- Rendering of a dynamic value by Go's fmt %v verb. -/
def renderV : JValue → String
  | .null => "<nil>"
  | .str s => s
  | .bool b => if b then "true" else "false"
  | .num n => toString n
  | .arr xs => "[" ++ renderVList xs ++ "]"
  | .obj fs => "map[" ++ renderVFields fs ++ "]"

/-- Space-separated rendering of a slice, as fmt %v does. -/
def renderVList : List JValue → String
  | [] => ""
  | [x] => renderV x
  | x :: y :: xs => renderV x ++ " " ++ renderVList (y :: xs)

/-- key:value rendering of a map, as fmt %v does. -/
def renderVFields : List (String × JValue) → String
  | [] => ""
  | [(k, v)] => k ++ ":" ++ renderV v
  | (k, v) :: y :: xs => k ++ ":" ++ renderV v ++ " " ++ renderVFields (y :: xs)
end

/-- Node of a resource graph (compiler.Node). -/
structure Node where
  id : String
  type' : String
  properties : List (String × JValue)

/-- Edge of a resource graph (compiler.Edge). -/
structure Edge where
  id : String
  from' : String
  to' : String
  type' : String
deriving DecidableEq

/-- Resource graph (compiler.Graph). -/
structure Graph where
  nodes : List Node
  edges : List Edge

/-- Cloud configuration (compiler.CloudConfig). -/
structure CloudConfig where
  provider : String
  region : String
deriving DecidableEq

/-- Compiled Terraform source bundle (compiler.TerraformCode). -/
structure TerraformCode where
  mainTF : String
  variablesTF : String
  outputsTF : String
  providerTF : String
deriving DecidableEq

/-- Go map indexing node.Properties[key]: first binding for the key. -/
def lookupProp : List (String × JValue) → String → Option JValue
  | [], _ => none
  | (k, v) :: rest, key => if k = key then some v else lookupProp rest key

/-- Go type assertion value.(string) with ok. -/
def asString : Option JValue → Option String
  | some (.str s) => some s
  | _ => none

/-- Go type assertion value.(bool) with ok. -/
def asBool : Option JValue → Option Bool
  | some (.bool b) => some b
  | _ => none

/-- Properties lookup rendered with %v (a missing key yields Go's nil). -/
def propV (props : List (String × JValue)) (key : String) : String :=
  renderV ((lookupProp props key).getD .null)

/-- The required-field loop shared by the Validate methods: first missing
field produces the error. -/
def checkRequired (n : Node) : List String → Option String
  | [] => none
  | f :: rest =>
    if (lookupProp n.properties f).isSome then checkRequired n rest
    else some ("missing required field: " ++ f)

/-- A resource compiler (compiler.ResourceCompiler): Validate returns an
error message or none; Compile returns an HCL fragment (the concrete
implementations never return an error, but one can crash). -/
structure ResourceCompiler where
  validate : Node → Option String
  compile : Node → COutcome String

/-- EC2Compiler.Validate. -/
def ec2Validate (n : Node) : Option String :=
  checkRequired n ["ami", "instance_type"]

/-- EC2Compiler.Compile. -/
def ec2Compile (n : Node) : COutcome String :=
  let base :=
    "resource \"aws_instance\" \"" ++ n.id ++ "\" \x7b" ++
    "\n  ami           = \"" ++ propV n.properties "ami" ++
    "\"\n  instance_type = \"" ++ propV n.properties "instance_type" ++ "\"\n"
  let withName :=
    match asString (lookupProp n.properties "name") with
    | some name =>
        base ++ "\n  tags = merge(var.tags, \x7b\n    Name = \"" ++ name ++
          "\"\n  \x7d)\n"
    | none => base
  let withSG :=
    match asString (lookupProp n.properties "security_group") with
    | some sg =>
        withName ++ "\n  vpc_security_group_ids = [aws_security_group." ++ sg ++
          ".id]\n"
    | none => withName
  let withSubnet :=
    match asString (lookupProp n.properties "subnet") with
    | some sub => withSG ++ "\n  subnet_id = aws_subnet." ++ sub ++ ".id\n"
    | none => withSG
  .ok (withSubnet ++ "\x7d\n")

/-- S3Compiler.Validate. -/
def s3Validate (n : Node) : Option String :=
  if (lookupProp n.properties "bucket_name").isSome then none
  else some "missing required field: bucket_name"

/-- S3Compiler.Compile. -/
def s3Compile (n : Node) : COutcome String :=
  let bucketName := propV n.properties "bucket_name"
  let base :=
    "resource \"aws_s3_bucket\" \"" ++ n.id ++ "\" \x7b\n  bucket = \"" ++
    bucketName ++ "\"\n  \n  tags = var.tags\n\x7d\n"
  match asBool (lookupProp n.properties "versioning") with
  | some true =>
      .ok (base ++ "\nresource \"aws_s3_bucket_versioning\" \"" ++ n.id ++
        "_versioning\" \x7b\n  bucket = aws_s3_bucket." ++ n.id ++
        ".id\n  \n  versioning_configuration \x7b\n    status = \"Enabled\"\n  \x7d\n\x7d\n")
  | _ => .ok base

/-- SecurityGroupCompiler.Validate. -/
def sgValidate (n : Node) : Option String :=
  checkRequired n ["name", "description"]

/-- One ingress block; Go reads the rule's fields via %v. -/
def sgIngressRule (r : List (String × JValue)) : String :=
  "\n  ingress \x7b\n    from_port   = " ++ propV r "from_port" ++
  "\n    to_port     = " ++ propV r "to_port" ++
  "\n    protocol    = \"" ++ propV r "protocol" ++
  "\"\n    cidr_blocks = [\"" ++ propV r "cidr_blocks" ++ "\"]\n  \x7d\n"

/-- The ingress loop: Go asserts each rule to map[string]interface\x7b\x7d
without an ok-check, so a non-object entry panics. -/
def sgIngressBlocks : List JValue → COutcome String
  | [] => .ok ""
  | r :: rest =>
    match r with
    | .obj fields =>
        match sgIngressBlocks rest with
        | .ok s => .ok (sgIngressRule fields ++ s)
        | other => other
    | _ => .crash "interface conversion: interface \x7b\x7d is not map[string]interface \x7b\x7d"

/-- SecurityGroupCompiler.Compile. -/
def sgCompile (n : Node) : COutcome String :=
  let base :=
    "resource \"aws_security_group\" \"" ++ n.id ++ "\" \x7b\n  name        = \"" ++
    propV n.properties "name" ++ "\"\n  description = \"" ++
    propV n.properties "description" ++ "\"\n"
  let withVpc :=
    match asString (lookupProp n.properties "vpc") with
    | some vpc => base ++ "  vpc_id = aws_vpc." ++ vpc ++ ".id\n"
    | none => base
  let ingressPart :=
    match lookupProp n.properties "ingress" with
    | some (.arr rules) => sgIngressBlocks rules
    | _ => .ok ""
  match ingressPart with
  | .ok ing =>
      .ok (withVpc ++ ing ++
        "\n  egress \x7b\n    from_port   = 0\n    to_port     = 0\n    protocol    = \"-1\"\n    cidr_blocks = [\"0.0.0.0/0\"]\n  \x7d\n" ++
        "\n  tags = var.tags\n\x7d\n")
  | .err e => .err e
  | .crash m => .crash m

/-- Stub compilers (RDS, VPC, Subnet): Validate always passes. -/
def stubValidate (_ : Node) : Option String := none

/-- RDSCompiler.Compile. -/
def rdsCompile (_ : Node) : COutcome String := .ok "# RDS not implemented yet\n"

/-- VPCCompiler.Compile. -/
def vpcCompile (_ : Node) : COutcome String := .ok "# VPC not implemented yet\n"

/-- SubnetCompiler.Compile. -/
def subnetCompile (_ : Node) : COutcome String := .ok "# Subnet not implemented yet\n"

/-- The registrations performed by NewCompiler. -/
def resourceCompilers : List (String × ResourceCompiler) :=
  [("aws_instance", ⟨ec2Validate, ec2Compile⟩),
   ("aws_s3_bucket", ⟨s3Validate, s3Compile⟩),
   ("aws_security_group", ⟨sgValidate, sgCompile⟩),
   ("aws_db_instance", ⟨stubValidate, rdsCompile⟩),
   ("aws_vpc", ⟨stubValidate, vpcCompile⟩),
   ("aws_subnet", ⟨stubValidate, subnetCompile⟩)]

/-- Map lookup c.resourceCompilers[node.Type]. -/
def lookupCompiler : List (String × ResourceCompiler) → String → Option ResourceCompiler
  | [], _ => none
  | (k, rc) :: rest, t => if k = t then some rc else lookupCompiler rest t

/-- Compiler.generateOutput. -/
def generateOutput (n : Node) : String :=
  "\noutput \"" ++ n.id ++ "_id\" \x7b\n  value       = " ++ n.type' ++ "." ++
  n.id ++ ".id\n  description = \"ID of " ++ n.id ++ "\"\n\x7d\n"

/-- Compiler.generateVariables. -/
def generateVariables : String :=
  "\nvariable \"tags\" \x7b\n  description = \"Common tags for all resources\"\n  type        = map(string)\n  default     = \x7b\n    ManagedBy = \"IaC-Studio\"\n  \x7d\n\x7d\n"

/-- Compiler.generateProvider: known provider aws emits a pinned block,
any other provider silently emits an empty string. -/
def generateProvider (config : CloudConfig) : String :=
  match config.provider with
  | "aws" =>
      "\nterraform \x7b\n  required_providers \x7b\n    aws = \x7b\n      source  = \"hashicorp/aws\"\n      version = \"~> 5.0\"\n    \x7d\n  \x7d\n\x7d\n\nprovider \"aws\" \x7b\n  region = \"" ++
      config.region ++ "\"\n\x7d\n"
  | _ => ""

/-- The per-node loop of Compiler.Compile, accumulating the main and
outputs sources; aborts at the first unsupported type, validation failure,
compile error or crash, exactly as the Go loop does. -/
def compileNodes : List Node → COutcome (String × String)
  | [] => .ok ("", "")
  | n :: rest =>
    match lookupCompiler resourceCompilers n.type' with
    | none => .err ("unsupported resource type: " ++ n.type')
    | some rc =>
      match rc.validate n with
      | some msg => .err ("validation failed for " ++ n.id ++ ": " ++ msg)
      | none =>
        match rc.compile n with
        | .err msg => .err ("compilation failed for " ++ n.id ++ ": " ++ msg)
        | .crash m => .crash m
        | .ok hcl =>
          match compileNodes rest with
          | .ok (m, o) => .ok (hcl ++ "\n\n" ++ m, generateOutput n ++ "\n" ++ o)
          | .err e => .err e
          | .crash m' => .crash m'

/-- Compiler.Compile: only graph.Nodes is consulted, never graph.Edges. -/
def Compile (graph : Graph) (cloudConfig : CloudConfig) : COutcome TerraformCode :=
  match compileNodes graph.nodes with
  | .ok (m, o) =>
      .ok ⟨m, generateVariables, o, generateProvider cloudConfig⟩
  | .err e => .err e
  | .crash m => .crash m

/-! ## State store (DatabaseStateStore over the deployment repository) -/

/-- Persisted deployment row; only the field touched by the state store is
modelled. terraformState holds the raw datatypes.JSON bytes, with the empty
string as gorm's zero value (never written). -/
structure DeploymentRec where
  terraformState : String
deriving DecidableEq

/-- The deployment repository as an association list keyed by id. -/
abbrev Repo := List (Nat × DeploymentRec)

/-- deploymentRepo.GetByID. -/
def repoGet : Repo → Nat → Option DeploymentRec
  | [], _ => none
  | (k, d) :: rest, id => if k = id then some d else repoGet rest id

/-- deploymentRepo.Update of an existing row. -/
def repoUpdate : Repo → Nat → DeploymentRec → Repo
  | [], _, _ => []
  | (k, d) :: rest, id, d' =>
    if k = id then (k, d') :: repoUpdate rest id d'
    else (k, d) :: repoUpdate rest id d'

/-- DatabaseStateStore.SaveState: a nil blob is stored as the four bytes
"null", a non-nil blob verbatim. -/
def SaveState (repo : Repo) (id : Nat) (state : Option String) : Except String Repo :=
  match repoGet repo id with
  | none => .error "record not found"
  | some _ =>
    match state with
    | none => .ok (repoUpdate repo id ⟨"null"⟩)
    | some s => .ok (repoUpdate repo id ⟨s⟩)

/-- DatabaseStateStore.GetState: a row whose stored bytes have length zero
yields nil. -/
def GetState (repo : Repo) (id : Nat) : Except String (Option String) :=
  match repoGet repo id with
  | none => .error "record not found"
  | some d => .ok (if d.terraformState = "" then none else some d.terraformState)

/-! ## Executor and orchestrator (TerraformProvisioner) -/

/-- Observable events of one orchestrator lifecycle call. -/
inductive OrchEvent where
  | mkWorkDir
  | writeStateFile (blob : String)
  | writeSourceFiles (code : TerraformCode)
  | runInit
  | runPlan
  | runApply
  | runDestroy
  | saveState (blob : Option String)
  | cleanupDir
deriving DecidableEq

/-- State threaded through one orchestrator call: whether the per-call
working directory exists, the content of its terraform.tfstate file, the
deployment repository behind the state store, and the event trace. -/
structure OrchState where
  wdExists : Bool
  stateFile : Option String
  repo : Repo
  trace : List OrchEvent
deriving DecidableEq

/-- Oracle fixing the outcome of every external call (filesystem, binary
lookup, terraform init/plan/apply/destroy/show) made during one
orchestrator call. -/
structure ExecEnv where
  mkdirOk : Bool
  writeFilesOk : Bool
  lookPathOk : Bool
  newTerraformOk : Bool
  initOk : Bool
  planOk : Bool
  planHasChanges : Bool
  showOk : Bool
  planRender : String
  applyOk : Bool
  outputs : List (String × String)
  stateBytes : String
  destroyOk : Bool
  seedMkdirOk : Bool
  seedWriteOk : Bool

/-- Executor.Plan result (PlanResult). -/
structure PlanResult where
  hasChanges : Bool
  planOutput : String
deriving DecidableEq

/-- Executor.Apply result (ApplyResult). -/
structure ApplyRes where
  outputs : List (String × String)
  state : String
deriving DecidableEq

/-- Orchestrator Plan value (provisioner.Plan); Go leaves the three
resource counters at their zero value. -/
structure PlanOut where
  changes : Int
  resourceAdds : Int
  resourceMods : Int
  resourceDels : Int
  planOutput : String
deriving DecidableEq

/-- Orchestrator Result (provisioner.Result), restricted to the fields the
callers read. -/
structure ResultR where
  success : Bool
  outputs : List (String × String)
  state : Option String
deriving DecidableEq

/-- Executor.Cleanup: os.RemoveAll of the working directory, run via defer
after every lifecycle call. -/
def execCleanup (s : OrchState) : OrchState :=
  ⟨false, none, s.repo, s.trace ++ [.cleanupDir]⟩

/-- The executor's initialization step: create the directory, write the
four source files, locate the terraform binary, build the process handle,
run terraform init. Returns an error message on the first failing step. -/
def execInitStep (env : ExecEnv) (code : TerraformCode) (s : OrchState) :
    OrchState × Option String :=
  if env.mkdirOk = false then (s, some "create working dir")
  else
    let s1 : OrchState := {s with wdExists := true, trace := s.trace ++ [.mkWorkDir]}
    if env.writeFilesOk = false then (s1, some "write terraform files")
    else
      let s2 : OrchState := {s1 with trace := s1.trace ++ [.writeSourceFiles code]}
      if env.lookPathOk = false then (s2, some "terraform not found in PATH")
      else if env.newTerraformOk = false then (s2, some "create terraform executor")
      else
        let s3 : OrchState := {s2 with trace := s2.trace ++ [.runInit]}
        if env.initOk then (s3, none) else (s3, some "terraform init")

/-- Executor.Plan: run terraform plan; rendering the plan output is
best-effort (a failing show leaves the output string empty). -/
def execPlanStep (env : ExecEnv) (s : OrchState) : OrchState × Except String PlanResult :=
  let s1 : OrchState := {s with trace := s.trace ++ [.runPlan]}
  if env.planOk = false then (s1, .error "terraform plan")
  else (s1, .ok ⟨env.planHasChanges, if env.showOk then env.planRender else ""⟩)

/-- Executor.Apply: run terraform apply, collect outputs (best-effort) and
the post-apply state (a failing show is fatal). -/
def execApplyStep (env : ExecEnv) (s : OrchState) : OrchState × Except String ApplyRes :=
  let s1 : OrchState := {s with trace := s.trace ++ [.runApply]}
  if env.applyOk = false then (s1, .error "terraform apply")
  else if env.showOk = false then (s1, .error "failed to get state")
  else (s1, .ok ⟨env.outputs, env.stateBytes⟩)

/-- Executor.Destroy: run terraform destroy in the current directory. -/
def execDestroyStep (env : ExecEnv) (s : OrchState) : OrchState × Option String :=
  let s1 : OrchState := {s with trace := s.trace ++ [.runDestroy]}
  if env.destroyOk then (s1, none) else (s1, some "terraform destroy")

/-- TerraformProvisioner.Plan: compile, initialize a fresh executor, plan,
always clean up; the executor's hasChanges is discarded and Changes is the
literal zero. -/
def orchPlan (env : ExecEnv) (g : Graph) (cfg : CloudConfig) (s0 : OrchState) :
    OrchState × COutcome PlanOut :=
  match Compile g cfg with
  | .err e => (s0, .err ("compile graph: " ++ e))
  | .crash m => (s0, .crash m)
  | .ok tc =>
    let body : OrchState × COutcome PlanOut :=
      match execInitStep env tc s0 with
      | (s', some e) => (s', .err ("executor initialize: " ++ e))
      | (s', none) =>
        match execPlanStep env s' with
        | (s'', .error e) => (s'', .err ("executor plan: " ++ e))
        | (s'', .ok pr) => (s'', .ok (⟨0, 0, 0, 0, pr.planOutput⟩ : PlanOut))
    (execCleanup body.1, body.2)

/-- SaveState whose error is discarded, as in the orchestrator's
assignments of the form underscore = stateStore.SaveState(...). -/
def saveOrKeep (repo : Repo) (id : Nat) (blob : Option String) : Repo :=
  match SaveState repo id blob with
  | .ok r' => r'
  | .error _ => repo

/-- TerraformProvisioner.Apply: compile, initialize, apply, persist the
returned state blob (SaveState error ignored), always clean up. -/
def orchApply (env : ExecEnv) (g : Graph) (cfg : CloudConfig) (id : Nat) (s0 : OrchState) :
    OrchState × COutcome ResultR :=
  match Compile g cfg with
  | .err e => (s0, .err ("compile graph: " ++ e))
  | .crash m => (s0, .crash m)
  | .ok tc =>
    let body : OrchState × COutcome ResultR :=
      match execInitStep env tc s0 with
      | (s', some e) => (s', .err ("executor initialize: " ++ e))
      | (s', none) =>
        match execApplyStep env s' with
        | (s'', .error e) => (s'', .err ("executor apply: " ++ e))
        | (s'', .ok ar) =>
          let s3 : OrchState :=
            {s'' with repo := saveOrKeep s''.repo id (some ar.state),
                      trace := s''.trace ++ [.saveState (some ar.state)]}
          (s3, .ok ⟨true, ar.outputs, some ar.state⟩)
    (execCleanup body.1, body.2)

/-- True when a Go byte slice has length zero (nil or empty). -/
def isEmptyBlob : Option String → Bool
  | none => true
  | some s => s = ""

/-- TerraformProvisioner.Destroy, after the state argument has been
resolved: seed the working directory with the state file when a non-empty
blob is present, initialize with an empty code bundle, run destroy, and on
success clear the stored state (SaveState with nil, error ignored). -/
def destroyBody (env : ExecEnv) (id : Nat) (state : Option String) (s0 : OrchState) :
    OrchState × COutcome ResultR :=
  let seeded :=
    if isEmptyBlob state then (s0, Option.none (α := String))
    else if env.seedMkdirOk = false then (s0, some "create working dir")
    else
      let sA : OrchState := {s0 with wdExists := true, trace := s0.trace ++ [.mkWorkDir]}
      if env.seedWriteOk = false then (sA, some "write state file")
      else
        let blob := state.getD ""
        (({sA with stateFile := some blob, trace := sA.trace ++ [.writeStateFile blob]} : OrchState),
          none)
  match seeded with
  | (s', some e) => (s', .err e)
  | (s', none) =>
    match execInitStep env ⟨"", "", "", ""⟩ s' with
    | (s1, some e) => (s1, .err ("executor initialize: " ++ e))
    | (s1, none) =>
      match execDestroyStep env s1 with
      | (s2, some e) => (s2, .err ("executor destroy: " ++ e))
      | (s2, none) =>
        (({s2 with repo := saveOrKeep s2.repo id none,
                   trace := s2.trace ++ [.saveState none]} : OrchState),
          .ok ⟨true, [], none⟩)

/-- TerraformProvisioner.Destroy: when the passed blob is empty, load one
from the state store (a store error leaves the argument as is); then run
the destroy body; always clean up. -/
def orchDestroy (env : ExecEnv) (id : Nat) (stateArg : Option String) (s0 : OrchState) :
    OrchState × COutcome ResultR :=
  let state1 :=
    if isEmptyBlob stateArg then
      match GetState s0.repo id with
      | .ok s? => s?
      | .error _ => stateArg
    else stateArg
  let body := destroyBody env id state1 s0
  (execCleanup body.1, body.2)

/-! ## Task handler (ProvisionTaskHandler) -/

/-- Observable effects issued by the task handler against the deployment
service. -/
inductive TaskEffect where
  | setStatus (s : String)
  | logEntry (level : String) (message : String)
  | saveOutputs
  | saveState
deriving DecidableEq

/-- Shape of a non-nil provisioner Result as the handler inspects it. -/
structure HRes where
  hasOutputs : Bool
  hasState : Bool

/-- Oracle for one HandleProvision run: whether payload/uuid parsing
succeeds, the outcomes of the three loads and two JSON decodes, and the
outcome of Orchestrator.Apply (err carries the error's message; ok carries
the possibly-nil Result). -/
structure ProvisionEnv where
  parseOk : Bool
  loadDeployment : Except String Unit
  loadProject : Except String Unit
  loadGraph : Except String Unit
  decodeNodes : Except String Unit
  decodeEdges : Except String Unit
  applyOutcome : Except String (Option HRes)

/-- The output/state persistence effects of a successful provision: each
non-nil field of a non-nil Result is saved. -/
def persistEffects : Option HRes → List TaskEffect
  | none => []
  | some r =>
    (if r.hasOutputs then [TaskEffect.saveOutputs] else []) ++
    (if r.hasState then [TaskEffect.saveState] else [])

/-- ProvisionTaskHandler.HandleProvision as a trace of effects plus the
returned error. -/
def HandleProvision (env : ProvisionEnv) : List TaskEffect × Except String Unit :=
  if env.parseOk = false then ([], .error "invalid task payload")
  else
    let t0 := [TaskEffect.setStatus "planning"]
    match env.loadDeployment with
    | .error e => (t0 ++ [.setStatus "failed"], .error e)
    | .ok _ =>
      match env.loadProject with
      | .error e => (t0 ++ [.setStatus "failed"], .error e)
      | .ok _ =>
        match env.loadGraph with
        | .error e => (t0 ++ [.setStatus "failed"], .error e)
        | .ok _ =>
          match env.decodeNodes with
          | .error e =>
              (t0 ++ [.setStatus "failed"], .error ("internal: unmarshal nodes failed: " ++ e))
          | .ok _ =>
            match env.decodeEdges with
            | .error e =>
                (t0 ++ [.setStatus "failed"], .error ("internal: unmarshal edges failed: " ++ e))
            | .ok _ =>
              let t1 := t0 ++ [TaskEffect.setStatus "applying"]
              match env.applyOutcome with
              | .error e =>
                  (t1 ++ [.logEntry "error" ("apply error: " ++ e), .setStatus "failed"], .error e)
              | .ok res =>
                (t1 ++ persistEffects res ++
                   [.logEntry "info" "apply completed", .setStatus "applied"],
                  .ok ())

/-- Oracle for one HandleDestroy run; the destroy outcome's ok value is
the possibly-nil Result, carrying whether its State field is non-nil. -/
structure DestroyEnv where
  parseOk : Bool
  loadDeployment : Except String Unit
  destroyOutcome : Except String (Option Bool)

/-- The state persistence effect of a successful destroy: saved only when
the Result is non-nil and its State field is non-nil. -/
def destroyPersist : Option Bool → List TaskEffect
  | some true => [TaskEffect.saveState]
  | _ => []

/-- ProvisionTaskHandler.HandleDestroy as a trace of effects plus the
returned error. -/
def HandleDestroy (env : DestroyEnv) : List TaskEffect × Except String Unit :=
  if env.parseOk = false then ([], .error "invalid task payload")
  else
    let t0 := [TaskEffect.setStatus "destroying"]
    match env.loadDeployment with
    | .error e => (t0 ++ [.setStatus "failed"], .error e)
    | .ok _ =>
      match env.destroyOutcome with
      | .error e =>
          (t0 ++ [.logEntry "error" ("destroy error: " ++ e), .setStatus "failed"], .error e)
      | .ok res =>
        (t0 ++ destroyPersist res ++
           [.logEntry "info" "destroy completed", .setStatus "destroyed"], .ok ())

/-- The sequence of status values written by a handler run. -/
def statusesOf (t : List TaskEffect) : List String :=
  t.filterMap fun e =>
    match e with
    | .setStatus s => some s
    | _ => none

/-- The error-level log messages appended by a handler run. -/
def errorLogsOf (t : List TaskEffect) : List String :=
  t.filterMap fun e =>
    match e with
    | .logEntry "error" m => some m
    | _ => none

/-! ## Helper lemmas about handler traces -/

lemma statusesOf_append (a b : List TaskEffect) :
    statusesOf (a ++ b) = statusesOf a ++ statusesOf b := by
  simp [statusesOf]

lemma errorLogsOf_append (a b : List TaskEffect) :
    errorLogsOf (a ++ b) = errorLogsOf a ++ errorLogsOf b := by
  simp [errorLogsOf]

lemma mem_persistEffects (a : TaskEffect) (r : Option HRes) (h : a ∈ persistEffects r) :
    a = TaskEffect.saveOutputs ∨ a = TaskEffect.saveState := by
  rcases r with _ | ⟨ho, hs⟩ <;> simp [persistEffects] at h
  cases ho <;> cases hs <;> simp at h <;> tauto

lemma statusesOf_persistEffects (r : Option HRes) : statusesOf (persistEffects r) = [] := by
  rw [statusesOf, List.filterMap_eq_nil_iff]
  intro a ha
  rcases mem_persistEffects a r ha with rfl | rfl <;> rfl

lemma errorLogsOf_persistEffects (r : Option HRes) : errorLogsOf (persistEffects r) = [] := by
  rw [errorLogsOf, List.filterMap_eq_nil_iff]
  intro a ha
  rcases mem_persistEffects a r ha with rfl | rfl <;> rfl

lemma statusesOf_destroyPersist (r : Option Bool) : statusesOf (destroyPersist r) = [] := by
  rcases r with _ | b
  · rfl
  · cases b <;> rfl

lemma errorLogsOf_destroyPersist (r : Option Bool) : errorLogsOf (destroyPersist r) = [] := by
  rcases r with _ | b
  · rfl
  · cases b <;> rfl

/-! ## C1: provision status sequences -/

/-- C1. When the payload parses, the deployment, project and graph load,
and the graph JSON decodes, HandleProvision writes exactly the statuses
[planning, applying, applied] when Orchestrator.Apply succeeds; when Apply
returns an error it writes exactly [planning, applying, failed] and
appends exactly one error-level log entry whose message is
"apply error: " followed by the cause. -/
theorem c1_provision_status_sequences (env : ProvisionEnv)
    (hp : env.parseOk = true) (hd : env.loadDeployment = .ok ())
    (hpr : env.loadProject = .ok ()) (hg : env.loadGraph = .ok ())
    (hn : env.decodeNodes = .ok ()) (he : env.decodeEdges = .ok ()) :
    (∀ res, env.applyOutcome = .ok res →
      statusesOf (HandleProvision env).1 = ["planning", "applying", "applied"]) ∧
    (∀ msg, env.applyOutcome = .error msg →
      statusesOf (HandleProvision env).1 = ["planning", "applying", "failed"] ∧
      errorLogsOf (HandleProvision env).1 = ["apply error: " ++ msg]) := by
  constructor
  · intro res hres
    simp [HandleProvision, hp, hd, hpr, hg, hn, he, hres, statusesOf_append,
      statusesOf_persistEffects, statusesOf]
    intro a ha
    rcases mem_persistEffects a res ha with rfl | rfl <;> rfl
  · intro msg hmsg
    constructor
    · simp [HandleProvision, hp, hd, hpr, hg, hn, he, hmsg, statusesOf_append, statusesOf]
    · simp [HandleProvision, hp, hd, hpr, hg, hn, he, hmsg, errorLogsOf_append, errorLogsOf]

/-- Witness for C1 at a concrete failing Apply. -/
theorem c1_provision_status_sequences_witness :
    statusesOf (HandleProvision
        ⟨true, .ok (), .ok (), .ok (), .ok (), .ok (), .error "invalid input"⟩).1 =
      ["planning", "applying", "failed"] ∧
    errorLogsOf (HandleProvision
        ⟨true, .ok (), .ok (), .ok (), .ok (), .ok (), .error "invalid input"⟩).1 =
      ["apply error: invalid input"] :=
  (c1_provision_status_sequences _ rfl rfl rfl rfl rfl rfl).2 "invalid input" rfl

/-! ## C6: failure surface of the task handlers -/

/-- C6 counterexample: a HandleProvision run that fails to load the
deployment sets the status to failed but appends no error-level log entry
at all, contradicting the claim that every failing job appends exactly
one error log carrying the causing message. -/
theorem c6_counterexample :
    (HandleProvision ⟨true, .error "record not found", .ok (), .ok (), .ok (), .ok (),
        .ok none⟩).2 = .error "record not found" ∧
    statusesOf (HandleProvision ⟨true, .error "record not found", .ok (), .ok (), .ok (),
        .ok (), .ok none⟩).1 = ["planning", "failed"] ∧
    errorLogsOf (HandleProvision ⟨true, .error "record not found", .ok (), .ok (), .ok (),
        .ok (), .ok none⟩).1 = [] := by
  refine ⟨rfl, rfl, rfl⟩

/-- C6 amended. Failures of Orchestrator.Apply and Orchestrator.Destroy
set the status to failed and append exactly one error-level log entry
carrying the causing message; failures to load the deployment, project or
graph, or to decode the graph JSON, set the status to failed but append
no error log; payload-parse failures write neither a status nor a log.
Stated by pinning the handler's full effect trace and returned error for
every failure family. -/
theorem c6_failure_surface (p : ProvisionEnv) (dv : DestroyEnv) :
    (p.parseOk = false → HandleProvision p = ([], .error "invalid task payload")) ∧
    (∀ e, p.parseOk = true → p.loadDeployment = .error e →
      HandleProvision p =
        ([.setStatus "planning", .setStatus "failed"], .error e)) ∧
    (∀ e, p.parseOk = true → p.loadDeployment = .ok () → p.loadProject = .error e →
      HandleProvision p =
        ([.setStatus "planning", .setStatus "failed"], .error e)) ∧
    (∀ e, p.parseOk = true → p.loadDeployment = .ok () → p.loadProject = .ok () →
      p.loadGraph = .error e →
      HandleProvision p =
        ([.setStatus "planning", .setStatus "failed"], .error e)) ∧
    (∀ e, p.parseOk = true → p.loadDeployment = .ok () → p.loadProject = .ok () →
      p.loadGraph = .ok () → p.decodeNodes = .error e →
      HandleProvision p =
        ([.setStatus "planning", .setStatus "failed"],
         .error ("internal: unmarshal nodes failed: " ++ e))) ∧
    (∀ e, p.parseOk = true → p.loadDeployment = .ok () → p.loadProject = .ok () →
      p.loadGraph = .ok () → p.decodeNodes = .ok () → p.decodeEdges = .error e →
      HandleProvision p =
        ([.setStatus "planning", .setStatus "failed"],
         .error ("internal: unmarshal edges failed: " ++ e))) ∧
    (∀ msg, p.parseOk = true → p.loadDeployment = .ok () → p.loadProject = .ok () →
      p.loadGraph = .ok () → p.decodeNodes = .ok () → p.decodeEdges = .ok () →
      p.applyOutcome = .error msg →
      HandleProvision p =
        ([.setStatus "planning", .setStatus "applying",
          .logEntry "error" ("apply error: " ++ msg), .setStatus "failed"], .error msg)) ∧
    (dv.parseOk = false → HandleDestroy dv = ([], .error "invalid task payload")) ∧
    (∀ e, dv.parseOk = true → dv.loadDeployment = .error e →
      HandleDestroy dv =
        ([.setStatus "destroying", .setStatus "failed"], .error e)) ∧
    (∀ msg, dv.parseOk = true → dv.loadDeployment = .ok () →
      dv.destroyOutcome = .error msg →
      HandleDestroy dv =
        ([.setStatus "destroying", .logEntry "error" ("destroy error: " ++ msg),
          .setStatus "failed"], .error msg)) := by
  refine ⟨?_, ?_, ?_, ?_, ?_, ?_, ?_, ?_, ?_, ?_⟩
  · intro hp
    simp [HandleProvision, hp]
  · intro e hp h1
    simp [HandleProvision, hp, h1]
  · intro e hp h1 h2
    simp [HandleProvision, hp, h1, h2]
  · intro e hp h1 h2 h3
    simp [HandleProvision, hp, h1, h2, h3]
  · intro e hp h1 h2 h3 h4
    simp [HandleProvision, hp, h1, h2, h3, h4]
  · intro e hp h1 h2 h3 h4 h5
    simp [HandleProvision, hp, h1, h2, h3, h4, h5]
  · intro msg hp h1 h2 h3 h4 h5 h6
    simp [HandleProvision, hp, h1, h2, h3, h4, h5, h6]
  · intro hd
    simp [HandleDestroy, hd]
  · intro e hd h1
    simp [HandleDestroy, hd, h1]
  · intro msg hd h1 h2
    simp [HandleDestroy, hd, h1, h2]

/-- Witness for C6 amended at concrete failing runs: a deployment-load
failure (status failed, no log) and a destroy failure (one error log). -/
theorem c6_failure_surface_witness :
    HandleProvision ⟨true, .error "db down", .ok (), .ok (), .ok (), .ok (), .ok none⟩ =
      ([.setStatus "planning", .setStatus "failed"], .error "db down") ∧
    HandleDestroy ⟨true, .ok (), .error "invalid terraform state"⟩ =
      ([.setStatus "destroying",
        .logEntry "error" "destroy error: invalid terraform state",
        .setStatus "failed"], .error "invalid terraform state") :=
  ⟨(c6_failure_surface ⟨true, .error "db down", .ok (), .ok (), .ok (), .ok (), .ok none⟩
      ⟨true, .ok (), .error "invalid terraform state"⟩).2.1 "db down" rfl rfl,
   (c6_failure_surface ⟨true, .error "db down", .ok (), .ok (), .ok (), .ok (), .ok none⟩
      ⟨true, .ok (), .error "invalid terraform state"⟩).2.2.2.2.2.2.2.2.2
     "invalid terraform state" rfl rfl rfl⟩

/-! ## C7 and C8: state store round trips -/

lemma repoGet_update (repo : Repo) (id : Nat) (d d' : DeploymentRec)
    (h : repoGet repo id = some d) : repoGet (repoUpdate repo id d') id = some d' := by
  induction repo with
  | nil => simp [repoGet] at h
  | cons kd rest ih =>
    obtain ⟨k, d0⟩ := kd
    by_cases hk : k = id
    · simp [repoGet, repoUpdate, hk]
    · simp only [repoGet, repoUpdate, hk, if_false, if_neg hk] at h ⊢
      exact ih h

lemma saveOrKeep_some (repo : Repo) (id : Nat) (s : String) (d : DeploymentRec)
    (h : repoGet repo id = some d) : saveOrKeep repo id (some s) = repoUpdate repo id ⟨s⟩ := by
  simp [saveOrKeep, SaveState, h]

lemma saveOrKeep_none (repo : Repo) (id : Nat) (d : DeploymentRec)
    (h : repoGet repo id = some d) : saveOrKeep repo id none = repoUpdate repo id ⟨"null"⟩ := by
  simp [saveOrKeep, SaveState, h]

/-- C7. For a stored deployment, SaveState with nil persists the explicit
sentinel "null", so GetState afterwards returns a non-empty value, while a
deployment whose state bytes were never written (gorm zero value, length
zero) yields nil from GetState. -/
theorem c7_nil_state_sentinel (repo : Repo) (id : Nat) (d : DeploymentRec)
    (h : repoGet repo id = some d) :
    (∀ repo', SaveState repo id none = .ok repo' →
      GetState repo' id = .ok (some "null")) ∧
    (d.terraformState = "" → GetState repo id = .ok none) := by
  constructor
  · intro repo' hsave
    simp only [SaveState, h] at hsave
    obtain rfl : repoUpdate repo id ⟨"null"⟩ = repo' := by
      cases hsave
      rfl
    simp [GetState, repoGet_update repo id d ⟨"null"⟩ h]
  · intro hempty
    simp [GetState, h, hempty]

/-- Witness for C7 at a concrete single-row repository. -/
theorem c7_nil_state_sentinel_witness :
    GetState (repoUpdate [(3, ⟨""⟩)] 3 ⟨"null"⟩) 3 = .ok (some "null") ∧
    GetState [(3, (⟨""⟩ : DeploymentRec))] 3 = .ok none :=
  ⟨(c7_nil_state_sentinel [(3, ⟨""⟩)] 3 ⟨""⟩ rfl).1 _ rfl,
   (c7_nil_state_sentinel [(3, ⟨""⟩)] 3 ⟨""⟩ rfl).2 rfl⟩

/-- All external steps of an Apply call succeed. -/
def applyFlagsOk (e : ExecEnv) : Prop :=
  e.mkdirOk = true ∧ e.writeFilesOk = true ∧ e.lookPathOk = true ∧
  e.newTerraformOk = true ∧ e.initOk = true ∧ e.applyOk = true ∧ e.showOk = true

lemma orchApply_success (env : ExecEnv) (g : Graph) (cfg : CloudConfig) (id : Nat)
    (s0 : OrchState) (tc : TerraformCode)
    (hc : Compile g cfg = .ok tc) (hf : applyFlagsOk env) :
    orchApply env g cfg id s0 =
      (⟨false, none, saveOrKeep s0.repo id (some env.stateBytes),
        s0.trace ++ [.mkWorkDir, .writeSourceFiles tc, .runInit, .runApply,
          .saveState (some env.stateBytes), .cleanupDir]⟩,
       .ok ⟨true, env.outputs, some env.stateBytes⟩) := by
  obtain ⟨h1, h2, h3, h4, h5, h6, h7⟩ := hf
  simp [orchApply, hc, execInitStep, execApplyStep, execCleanup,
    h1, h2, h3, h4, h5, h6, h7]

/-- C8. Two successful sequential Apply calls for the same deployment id
leave the state store holding exactly the second call's blob:
a subsequent GetState returns it (last-write-wins overwrite). -/
theorem c8_last_write_wins (env1 env2 : ExecEnv) (g1 g2 : Graph) (cfg1 cfg2 : CloudConfig)
    (id : Nat) (repo0 : Repo) (d : DeploymentRec) (tc1 tc2 : TerraformCode)
    (hrepo : repoGet repo0 id = some d)
    (hc1 : Compile g1 cfg1 = .ok tc1) (hc2 : Compile g2 cfg2 = .ok tc2)
    (hf1 : applyFlagsOk env1) (hf2 : applyFlagsOk env2)
    (hb : env2.stateBytes ≠ "") :
    GetState ((orchApply env2 g2 cfg2 id
        ((orchApply env1 g1 cfg1 id ⟨false, none, repo0, []⟩).1)).1).repo id =
      .ok (some env2.stateBytes) := by
  rw [orchApply_success env1 g1 cfg1 id _ tc1 hc1 hf1]
  rw [orchApply_success env2 g2 cfg2 id _ tc2 hc2 hf2]
  have hget1 : repoGet (saveOrKeep repo0 id (some env1.stateBytes)) id =
      some ⟨env1.stateBytes⟩ := by
    rw [saveOrKeep_some repo0 id env1.stateBytes d hrepo]
    exact repoGet_update _ _ _ _ hrepo
  show GetState (saveOrKeep (saveOrKeep repo0 id (some env1.stateBytes)) id
      (some env2.stateBytes)) id = .ok (some env2.stateBytes)
  rw [saveOrKeep_some _ id env2.stateBytes _ hget1]
  simp [GetState, repoGet_update _ _ _ (⟨env2.stateBytes⟩ : DeploymentRec) hget1, hb]

/-! ## C4: the working directory never survives a lifecycle call -/

/-- C4. After any orchestrator Apply or Destroy call, whatever the
outcome of compilation, initialization or the external tool, the per-call
working directory does not exist: the deferred Cleanup removes it, and the
only path that skips Cleanup (a compile failure in Apply) never created
it. -/
theorem c4_workdir_removed (env : ExecEnv) (g : Graph) (cfg : CloudConfig) (id : Nat)
    (st : Option String) (s0 : OrchState) (h : s0.wdExists = false) :
    ((orchApply env g cfg id s0).1.wdExists = false) ∧
    ((orchDestroy env id st s0).1.wdExists = false) := by
  constructor
  · unfold orchApply
    cases hC : Compile g cfg <;> simp [execCleanup, h]
  · rfl

/-- Witness for C4 at a concrete call with a failing terraform apply. -/
theorem c4_workdir_removed_witness :
    ((orchApply ⟨true, true, true, true, true, true, false, true, "", false, [], "", true,
        true, true⟩ ⟨[⟨"r1", "aws_db_instance", []⟩], []⟩ ⟨"aws", "us-east-1"⟩ 7
        ⟨false, none, [], []⟩).1.wdExists = false) ∧
    ((orchDestroy ⟨true, true, true, true, true, true, false, true, "", false, [], "", true,
        true, true⟩ 7 none ⟨false, none, [], []⟩).1.wdExists = false) :=
  c4_workdir_removed _ _ _ 7 none _ rfl

/-! ## C5: destroy seeds the state file first and clears state only on success -/

lemma destroySeedCore (env : ExecEnv) (id : Nat) (blob : String)
    (repo0 : Repo) (d : DeploymentRec)
    (hb : blob ≠ "") (hrepo : repoGet repo0 id = some d) :
    (OrchEvent.runDestroy ∈ (orchDestroy env id (some blob) ⟨false, none, repo0, []⟩).1.trace →
      OrchEvent.writeStateFile blob ∈
        ((orchDestroy env id (some blob) ⟨false, none, repo0, []⟩).1.trace.takeWhile
          (fun e => !(e == OrchEvent.runDestroy)))) ∧
    (∀ res, (orchDestroy env id (some blob) ⟨false, none, repo0, []⟩).2 = .ok res →
      (orchDestroy env id (some blob) ⟨false, none, repo0, []⟩).1.repo =
        repoUpdate repo0 id ⟨"null"⟩) ∧
    (∀ e, (orchDestroy env id (some blob) ⟨false, none, repo0, []⟩).2 = .err e →
      (orchDestroy env id (some blob) ⟨false, none, repo0, []⟩).1.repo = repo0) := by
  obtain ⟨mk, wf, lkp, nt, it, pl, phc, sh, pr, ap, outs, sb, de, smk, swr⟩ := env
  have hblob : isEmptyBlob (some blob) = false := by simp [isEmptyBlob, hb]
  cases smk <;> cases swr <;> cases mk <;> cases wf <;> cases lkp <;> cases nt <;>
    cases it <;> cases de <;>
    simp [orchDestroy, destroyBody, execInitStep, execDestroyStep, execCleanup, hblob,
      saveOrKeep_none _ _ _ hrepo, List.takeWhile_cons]

/-- C5. A Destroy call whose non-empty state blob is either passed as the
argument or loaded from the StateStore (empty or absent argument, stored
bytes non-empty) writes that blob into the working directory before the
external destroy step runs; the stored state is cleared (SaveState with
nil, i.e. the "null" sentinel) only when the destroy step succeeds, and a
failing call leaves the store unchanged. -/
theorem c5_destroy_state_seeding (env : ExecEnv) (id : Nat) (blob : String)
    (repo0 : Repo) (d : DeploymentRec) (stateArg : Option String)
    (hb : blob ≠ "") (hrepo : repoGet repo0 id = some d)
    (harg : stateArg = some blob ∨
      (isEmptyBlob stateArg = true ∧ d.terraformState = blob)) :
    (OrchEvent.runDestroy ∈ (orchDestroy env id stateArg ⟨false, none, repo0, []⟩).1.trace →
      OrchEvent.writeStateFile blob ∈
        ((orchDestroy env id stateArg ⟨false, none, repo0, []⟩).1.trace.takeWhile
          (fun e => !(e == OrchEvent.runDestroy)))) ∧
    (∀ res, (orchDestroy env id stateArg ⟨false, none, repo0, []⟩).2 = .ok res →
      (orchDestroy env id stateArg ⟨false, none, repo0, []⟩).1.repo =
        repoUpdate repo0 id ⟨"null"⟩) ∧
    (∀ e, (orchDestroy env id stateArg ⟨false, none, repo0, []⟩).2 = .err e →
      (orchDestroy env id stateArg ⟨false, none, repo0, []⟩).1.repo = repo0) := by
  have key : orchDestroy env id stateArg ⟨false, none, repo0, []⟩ =
      orchDestroy env id (some blob) ⟨false, none, repo0, []⟩ := by
    rcases harg with rfl | ⟨hempty, hdstate⟩
    · rfl
    · have hsb : isEmptyBlob (some blob) = false := by simp [isEmptyBlob, hb]
      simp [orchDestroy, hempty, hsb, GetState, hrepo, hdstate, hb]
  rw [key]
  exact destroySeedCore env id blob repo0 d hb hrepo

/-- Witness for C5 at a concrete fully successful destroy that loads its
blob from the state store (no argument passed). -/
theorem c5_destroy_state_seeding_witness :
    OrchEvent.writeStateFile "B" ∈
      ((orchDestroy ⟨true, true, true, true, true, true, false, true, "", true, [], "", true,
          true, true⟩ 5 none ⟨false, none, [(5, ⟨"B"⟩)], []⟩).1.trace.takeWhile
        (fun e => !(e == OrchEvent.runDestroy))) ∧
    (orchDestroy ⟨true, true, true, true, true, true, false, true, "", true, [], "", true,
        true, true⟩ 5 none ⟨false, none, [(5, ⟨"B"⟩)], []⟩).1.repo =
      repoUpdate [(5, ⟨"B"⟩)] 5 ⟨"null"⟩ :=
  ⟨(c5_destroy_state_seeding _ 5 "B" [(5, ⟨"B"⟩)] ⟨"B"⟩ none (by decide) rfl
      (Or.inr ⟨rfl, rfl⟩)).1 (by decide),
   (c5_destroy_state_seeding _ 5 "B" [(5, ⟨"B"⟩)] ⟨"B"⟩ none (by decide) rfl
      (Or.inr ⟨rfl, rfl⟩)).2.1 ⟨true, [], none⟩ rfl⟩

/-- Witness for C8: two concrete successful applies of a stub resource. -/
theorem c8_last_write_wins_witness :
    GetState ((orchApply
        ⟨true, true, true, true, true, true, false, true, "", true, [], "S2", true, true, true⟩
        ⟨[⟨"r1", "aws_db_instance", []⟩], []⟩ ⟨"aws", "us-east-1"⟩ 7
        ((orchApply
            ⟨true, true, true, true, true, true, false, true, "", true, [], "S1", true, true,
              true⟩
            ⟨[⟨"r1", "aws_db_instance", []⟩], []⟩ ⟨"aws", "us-east-1"⟩ 7
            ⟨false, none, [(7, ⟨""⟩)], []⟩).1)).1).repo 7 = .ok (some "S2") :=
  c8_last_write_wins _ _ _ _ _ _ 7 [(7, ⟨""⟩)] ⟨""⟩
    ⟨"# RDS not implemented yet\n\n\n", generateVariables,
      generateOutput ⟨"r1", "aws_db_instance", []⟩ ++ "\n",
      generateProvider ⟨"aws", "us-east-1"⟩⟩
    ⟨"# RDS not implemented yet\n\n\n", generateVariables,
      generateOutput ⟨"r1", "aws_db_instance", []⟩ ++ "\n",
      generateProvider ⟨"aws", "us-east-1"⟩⟩
    rfl rfl rfl ⟨rfl, rfl, rfl, rfl, rfl, rfl, rfl⟩ ⟨rfl, rfl, rfl, rfl, rfl, rfl, rfl⟩
    (by decide)

/-! ## C9: the compiler ignores edges and concatenates in input order -/

/-- The HCL fragment a node contributes to the main source (its compiled
form followed by the blank-line separator), empty on the abort paths. -/
def nodeFragment (n : Node) : String :=
  match lookupCompiler resourceCompilers n.type' with
  | some rc =>
    match rc.compile n with
    | .ok s => s ++ "\n\n"
    | _ => ""
  | none => ""

/-- Concatenation of the per-node fragments in the nodes' input order. -/
def mainConcat (ns : List Node) : String :=
  (ns.map nodeFragment).foldr (· ++ ·) ""

lemma compileNodes_main_concat : ∀ (ns : List Node) (m o : String),
    compileNodes ns = .ok (m, o) → m = mainConcat ns := by
  intro ns
  induction ns with
  | nil =>
    intro m o h
    simp [compileNodes] at h
    simp [mainConcat, ← h.1]
  | cons n rest ih =>
    intro m o h
    simp only [compileNodes] at h
    cases hrc : lookupCompiler resourceCompilers n.type' with
    | none => simp only [hrc] at h; simp at h
    | some rc =>
      simp only [hrc] at h
      cases hv : rc.validate n with
      | some msg => simp only [hv] at h; simp at h
      | none =>
        simp only [hv] at h
        cases hcmp : rc.compile n with
        | err m1 => simp only [hcmp] at h; simp at h
        | crash m1 => simp only [hcmp] at h; simp at h
        | ok hcl =>
          simp only [hcmp] at h
          cases hrest : compileNodes rest with
          | err e => simp only [hrest] at h; simp at h
          | crash m2 => simp only [hrest] at h; simp at h
          | ok pq =>
            obtain ⟨m', o'⟩ := pq
            simp only [hrest, COutcome.ok.injEq, Prod.mk.injEq] at h
            rw [← h.1, ih m' o' hrest]
            simp [mainConcat, nodeFragment, hrc, hcmp, String.append_assoc]

/-- C9. Compile never consults the graph's edges: any two graphs with the
same node list and the same cloud config compile identically; moreover a
successful compilation's main source is exactly the concatenation of the
per-node fragments in the nodes' input order. -/
theorem c9_compile_ignores_edges (nodes : List Node) (e1 e2 : List Edge)
    (cfg : CloudConfig) :
    Compile ⟨nodes, e1⟩ cfg = Compile ⟨nodes, e2⟩ cfg ∧
    (∀ tc, Compile ⟨nodes, e1⟩ cfg = .ok tc → tc.mainTF = mainConcat nodes) := by
  refine ⟨rfl, ?_⟩
  intro tc h
  simp only [Compile] at h
  cases hcn : compileNodes nodes with
  | err e => rw [hcn] at h; simp at h
  | crash m => rw [hcn] at h; simp at h
  | ok p =>
    obtain ⟨m, o⟩ := p
    rw [hcn] at h
    simp only [COutcome.ok.injEq] at h
    rw [← h]
    exact compileNodes_main_concat nodes m o hcn

/-- Witness for C9: a one-node graph compiled with and without an edge. -/
theorem c9_compile_ignores_edges_witness :
    Compile ⟨[⟨"r1", "aws_db_instance", []⟩], [⟨"e1", "a", "b", "depends_on"⟩]⟩
        ⟨"aws", "us-east-1"⟩ =
      Compile ⟨[⟨"r1", "aws_db_instance", []⟩], []⟩ ⟨"aws", "us-east-1"⟩ ∧
    (⟨"# RDS not implemented yet\n\n\n", generateVariables,
        generateOutput ⟨"r1", "aws_db_instance", []⟩ ++ "\n",
        generateProvider ⟨"aws", "us-east-1"⟩⟩ : TerraformCode).mainTF =
      mainConcat [⟨"r1", "aws_db_instance", []⟩] :=
  ⟨(c9_compile_ignores_edges [⟨"r1", "aws_db_instance", []⟩] [⟨"e1", "a", "b", "depends_on"⟩]
      [] ⟨"aws", "us-east-1"⟩).1,
   (c9_compile_ignores_edges [⟨"r1", "aws_db_instance", []⟩] [⟨"e1", "a", "b", "depends_on"⟩]
      [] ⟨"aws", "us-east-1"⟩).2 _ rfl⟩

/-! ## C10: the orchestrator's Plan discards hasChanges -/

/-- C10. Whenever the orchestrator's Plan succeeds, the returned Plan has
Changes, ResourceAdds, ResourceMods and ResourceDels all zero, its
PlanOutput is exactly the executor's rendered plan output, and the whole
call is independent of the executor's hasChanges bit. -/
theorem c10_plan_changes_zero (env : ExecEnv) (g : Graph) (cfg : CloudConfig)
    (s0 : OrchState) (p : PlanOut)
    (h : (orchPlan env g cfg s0).2 = .ok p) :
    p.changes = 0 ∧ p.resourceAdds = 0 ∧ p.resourceMods = 0 ∧ p.resourceDels = 0 ∧
    p.planOutput = (if env.showOk then env.planRender else "") ∧
    (∀ b, orchPlan {env with planHasChanges := b} g cfg s0 = orchPlan env g cfg s0) := by
  obtain ⟨mk, wf, lkp, nt, it, pl, phc, sh, pr, ap, outs, sb, de, smk, swr⟩ := env
  cases hC : Compile g cfg <;>
    cases mk <;> cases wf <;> cases lkp <;> cases nt <;> cases it <;> cases pl <;> cases sh <;>
    simp [orchPlan, hC, execInitStep, execPlanStep, execCleanup] at h ⊢ <;>
    (subst h; simp)

/-- Witness for C10 at a concrete fully successful plan. -/
theorem c10_plan_changes_zero_witness :
    (⟨0, 0, 0, 0, "OUT"⟩ : PlanOut).changes = 0 ∧
    orchPlan ⟨true, true, true, true, true, true, false, true, "OUT", true, [], "", true, true,
        true⟩ ⟨[⟨"r1", "aws_db_instance", []⟩], []⟩ ⟨"aws", "us-east-1"⟩
        ⟨false, none, [], []⟩ =
      orchPlan ⟨true, true, true, true, true, true, true, true, "OUT", true, [], "", true, true,
        true⟩ ⟨[⟨"r1", "aws_db_instance", []⟩], []⟩ ⟨"aws", "us-east-1"⟩
        ⟨false, none, [], []⟩ :=
  ⟨(c10_plan_changes_zero
      ⟨true, true, true, true, true, true, true, true, "OUT", true, [], "", true, true, true⟩
      ⟨[⟨"r1", "aws_db_instance", []⟩], []⟩ ⟨"aws", "us-east-1"⟩ ⟨false, none, [], []⟩
      ⟨0, 0, 0, 0, "OUT"⟩ rfl).1,
   (c10_plan_changes_zero
      ⟨true, true, true, true, true, true, true, true, "OUT", true, [], "", true, true, true⟩
      ⟨[⟨"r1", "aws_db_instance", []⟩], []⟩ ⟨"aws", "us-east-1"⟩ ⟨false, none, [], []⟩
      ⟨0, 0, 0, 0, "OUT"⟩ rfl).2.2.2.2.2 false⟩

/-! ## C2: Compile fails iff a required property is absent -/

/-- A node type with a registered resource compiler. -/
def supportedType (t : String) : Bool :=
  (lookupCompiler resourceCompilers t).isSome

/-- Modelled from the spec: the required-property table of §4.1, used to
compare the code's Validate methods against the specified table. -/
def specRequiredFields : String → List String
  | "aws_instance" => ["ami", "instance_type"]
  | "aws_s3_bucket" => ["bucket_name"]
  | "aws_security_group" => ["name", "description"]
  | _ => []

/-- Some required property of the node's type (per the spec table) is
absent from its properties map. -/
def nodeMissingRequired (n : Node) : Bool :=
  (specRequiredFields n.type').any fun f => (lookupProp n.properties f).isNone

/-- Whether a dynamic value is a JSON object. -/
def isObj : JValue → Bool
  | .obj _ => true
  | _ => false

/-- The node's ingress property, when present as a list, has only object
entries (the inputs on which the security-group compiler cannot panic). -/
def ingressEntriesAreObjs (n : Node) : Bool :=
  match lookupProp n.properties "ingress" with
  | some (.arr rules) => rules.all isObj
  | _ => true

lemma checkRequired_isSome (n : Node) : ∀ fs : List String,
    (checkRequired n fs).isSome =
      fs.any fun f => (lookupProp n.properties f).isNone := by
  intro fs
  induction fs with
  | nil => rfl
  | cons f rest ih =>
    cases hl : lookupProp n.properties f with
    | some v => simp [checkRequired, hl, ih]
    | none => simp [checkRequired, hl]

lemma validate_spec (n : Node) (rc : ResourceCompiler)
    (h : lookupCompiler resourceCompilers n.type' = some rc) :
    (rc.validate n).isSome = nodeMissingRequired n := by
  obtain ⟨nid, nty, nprops⟩ := n
  by_cases h1 : "aws_instance" = nty
  · subst h1
    simp [lookupCompiler, resourceCompilers] at h
    subst h
    simp [ec2Validate, nodeMissingRequired, specRequiredFields, checkRequired_isSome]
  by_cases h2 : "aws_s3_bucket" = nty
  · subst h2
    simp [lookupCompiler, resourceCompilers] at h
    subst h
    cases hl : lookupProp nprops "bucket_name" with
    | some v => simp [s3Validate, nodeMissingRequired, specRequiredFields, hl]
    | none => simp [s3Validate, nodeMissingRequired, specRequiredFields, hl]
  by_cases h3 : "aws_security_group" = nty
  · subst h3
    simp [lookupCompiler, resourceCompilers] at h
    subst h
    simp [sgValidate, nodeMissingRequired, specRequiredFields, checkRequired_isSome]
  by_cases h4 : "aws_db_instance" = nty
  · subst h4
    simp [lookupCompiler, resourceCompilers] at h
    subst h
    simp [stubValidate, nodeMissingRequired, specRequiredFields]
  by_cases h5 : "aws_vpc" = nty
  · subst h5
    simp [lookupCompiler, resourceCompilers] at h
    subst h
    simp [stubValidate, nodeMissingRequired, specRequiredFields]
  by_cases h6 : "aws_subnet" = nty
  · subst h6
    simp [lookupCompiler, resourceCompilers] at h
    subst h
    simp [stubValidate, nodeMissingRequired, specRequiredFields]
  · simp [lookupCompiler, resourceCompilers, h1, h2, h3, h4, h5, h6] at h

lemma sgIngressBlocks_ok (rules : List JValue) (h : rules.all isObj = true) :
    ∃ s, sgIngressBlocks rules = .ok s := by
  induction rules with
  | nil => exact ⟨"", rfl⟩
  | cons r rest ih =>
    simp only [List.all_cons, Bool.and_eq_true] at h
    obtain ⟨hr, hrest⟩ := h
    obtain ⟨s, hs⟩ := ih hrest
    cases r with
    | obj fields =>
      refine ⟨sgIngressRule fields ++ s, ?_⟩
      simp [sgIngressBlocks, hs]
    | null => simp [isObj] at hr
    | str a => simp [isObj] at hr
    | bool a => simp [isObj] at hr
    | num a => simp [isObj] at hr
    | arr a => simp [isObj] at hr

/-- Whether an outcome is a normal return. -/
def isOkOut {α : Type} : COutcome α → Bool
  | .ok _ => true
  | _ => false

lemma exists_ok_of_isOk {α : Type} (x : COutcome α) (h : isOkOut x = true) :
    ∃ a, x = .ok a := by
  cases x with
  | ok a => exact ⟨a, rfl⟩
  | err e => simp [isOkOut] at h
  | crash m => simp [isOkOut] at h

lemma compile_ok_of_safe (n : Node) (rc : ResourceCompiler)
    (h : lookupCompiler resourceCompilers n.type' = some rc)
    (hing : n.type' = "aws_security_group" → ingressEntriesAreObjs n = true) :
    ∃ s, rc.compile n = .ok s := by
  apply exists_ok_of_isOk
  obtain ⟨nid, nty, nprops⟩ := n
  by_cases h1 : "aws_instance" = nty
  · subst h1
    simp [lookupCompiler, resourceCompilers] at h
    subst h
    rfl
  by_cases h2 : "aws_s3_bucket" = nty
  · subst h2
    simp [lookupCompiler, resourceCompilers] at h
    subst h
    cases hb : asBool (lookupProp nprops "versioning") with
    | none => simp [s3Compile, hb, isOkOut]
    | some b => cases b <;> simp [s3Compile, hb, isOkOut]
  by_cases h3 : "aws_security_group" = nty
  · subst h3
    simp [lookupCompiler, resourceCompilers] at h
    subst h
    have hobjs := hing rfl
    cases hl : lookupProp nprops "ingress" with
    | none => simp [sgCompile, hl, isOkOut]
    | some v =>
      cases v with
      | arr rules =>
        have hall : rules.all isObj = true := by
          simpa [ingressEntriesAreObjs, hl] using hobjs
        obtain ⟨s, hs⟩ := sgIngressBlocks_ok rules hall
        simp [sgCompile, hl, hs, isOkOut]
      | null => simp [sgCompile, hl, isOkOut]
      | str a => simp [sgCompile, hl, isOkOut]
      | bool a => simp [sgCompile, hl, isOkOut]
      | num a => simp [sgCompile, hl, isOkOut]
      | obj a => simp [sgCompile, hl, isOkOut]
  by_cases h4 : "aws_db_instance" = nty
  · subst h4
    simp [lookupCompiler, resourceCompilers] at h
    subst h
    rfl
  by_cases h5 : "aws_vpc" = nty
  · subst h5
    simp [lookupCompiler, resourceCompilers] at h
    subst h
    rfl
  by_cases h6 : "aws_subnet" = nty
  · subst h6
    simp [lookupCompiler, resourceCompilers] at h
    subst h
    rfl
  · simp [lookupCompiler, resourceCompilers, h1, h2, h3, h4, h5, h6] at h

lemma compileNodes_classify (ns : List Node)
    (hsupp : ∀ n ∈ ns, supportedType n.type' = true)
    (hing : ∀ n ∈ ns, n.type' = "aws_security_group" → ingressEntriesAreObjs n = true) :
    ((∃ e, compileNodes ns = .err e) ↔ ∃ n ∈ ns, nodeMissingRequired n = true) ∧
    ∀ m, compileNodes ns ≠ .crash m := by
  induction ns with
  | nil =>
    constructor
    · simp [compileNodes]
    · intro m
      simp [compileNodes]
  | cons n rest ih =>
    have hs := hsupp n (by simp)
    obtain ⟨rc, hrc⟩ : ∃ rc, lookupCompiler resourceCompilers n.type' = some rc := by
      simpa [supportedType, Option.isSome_iff_exists] using hs
    have hval := validate_spec n rc hrc
    have ihh := ih (fun x hx => hsupp x (by simp [hx]))
      (fun x hx => hing x (by simp [hx]))
    by_cases hmiss : nodeMissingRequired n = true
    · obtain ⟨msg, hv⟩ : ∃ msg, rc.validate n = some msg := by
        rw [hmiss] at hval
        exact Option.isSome_iff_exists.mp hval
      constructor
      · constructor
        · intro _
          exact ⟨n, by simp, hmiss⟩
        · intro _
          refine ⟨"validation failed for " ++ n.id ++ ": " ++ msg, ?_⟩
          simp [compileNodes, hrc, hv]
      · intro m hcontra
        simp [compileNodes, hrc, hv] at hcontra
    · have hv : rc.validate n = none := by
        cases hv' : rc.validate n with
        | some m =>
          rw [hv'] at hval
          simp at hval
          exact absurd hval hmiss
        | none => rfl
      obtain ⟨hcl, hcmp⟩ := compile_ok_of_safe n rc hrc (hing n (by simp))
      constructor
      · constructor
        · rintro ⟨e, he⟩
          cases hrest : compileNodes rest with
          | ok p =>
            obtain ⟨m', o'⟩ := p
            simp [compileNodes, hrc, hv, hcmp, hrest] at he
          | err e2 =>
            obtain ⟨x, hxmem, hxmiss⟩ := (ihh.1).mp ⟨e2, hrest⟩
            exact ⟨x, by simp [hxmem], hxmiss⟩
          | crash m2 => exact absurd hrest (ihh.2 m2)
        · rintro ⟨x, hxmem, hxmiss⟩
          rcases List.mem_cons.mp hxmem with rfl | hxrest
          · exact absurd hxmiss hmiss
          · obtain ⟨e2, hrest⟩ := (ihh.1).mpr ⟨x, hxrest, hxmiss⟩
            exact ⟨e2, by simp [compileNodes, hrc, hv, hcmp, hrest]⟩
      · intro m hcontra
        cases hrest : compileNodes rest with
        | ok p =>
          obtain ⟨m', o'⟩ := p
          simp [compileNodes, hrc, hv, hcmp, hrest] at hcontra
        | err e2 => simp [compileNodes, hrc, hv, hcmp, hrest] at hcontra
        | crash m2 => exact absurd hrest (ihh.2 m2)

/-- C2 counterexample. A security-group node with all required properties
present but a non-object ingress entry makes Compile panic: it neither
succeeds nor returns an error, while no required property is absent; the
claimed equivalence also fails in the other direction, since prepending
that node to an instance node lacking ami gives a graph with a missing
required property whose compilation still returns no error. -/
theorem c2_counterexample :
    Compile ⟨[⟨"sg1", "aws_security_group",
        [("name", .str "n"), ("description", .str "d"), ("ingress", .arr [.num 1])]⟩], []⟩
      ⟨"aws", "us-east-1"⟩ =
      .crash "interface conversion: interface \x7b\x7d is not map[string]interface \x7b\x7d" ∧
    nodeMissingRequired ⟨"sg1", "aws_security_group",
        [("name", .str "n"), ("description", .str "d"), ("ingress", .arr [.num 1])]⟩ = false ∧
    Compile ⟨[⟨"sg1", "aws_security_group",
        [("name", .str "n"), ("description", .str "d"), ("ingress", .arr [.num 1])]⟩,
        ⟨"e1", "aws_instance", []⟩], []⟩ ⟨"aws", "us-east-1"⟩ =
      .crash "interface conversion: interface \x7b\x7d is not map[string]interface \x7b\x7d" ∧
    nodeMissingRequired ⟨"e1", "aws_instance", []⟩ = true := by
  exact ⟨rfl, rfl, rfl, rfl⟩

/-- C2 amended. For a graph all of whose node types are in the supported
catalog and in which no security-group node's ingress list contains a
non-object entry (the input on which the compiler panics instead),
Compile fails if and only if some node lacks a required property of its
type per the §4.1 table. -/
theorem c2_validation_iff (nodes : List Node) (edges : List Edge) (cfg : CloudConfig)
    (hsupp : ∀ n ∈ nodes, supportedType n.type' = true)
    (hing : ∀ n ∈ nodes, n.type' = "aws_security_group" → ingressEntriesAreObjs n = true) :
    (∃ e, Compile ⟨nodes, edges⟩ cfg = .err e) ↔
      ∃ n ∈ nodes, nodeMissingRequired n = true := by
  have h := compileNodes_classify nodes hsupp hing
  constructor
  · rintro ⟨e, he⟩
    apply h.1.mp
    simp only [Compile] at he
    cases hcn : compileNodes nodes with
    | ok p =>
      obtain ⟨m, o⟩ := p
      simp only [hcn] at he
      simp at he
    | err e2 => exact ⟨e2, rfl⟩
    | crash m =>
      simp only [hcn] at he
      simp at he
  · intro hm
    obtain ⟨e2, hrest⟩ := h.1.mpr hm
    exact ⟨e2, by simp [Compile, hrest]⟩

/-- Witness for C2 amended at a one-node graph missing ami. -/
theorem c2_validation_iff_witness :
    Compile ⟨[⟨"e1", "aws_instance", []⟩], []⟩ ⟨"aws", "us-east-1"⟩ =
      .err "validation failed for e1: missing required field: ami" ∧
    nodeMissingRequired ⟨"e1", "aws_instance", []⟩ = true := by
  refine ⟨rfl, ?_⟩
  obtain ⟨n, hn, hmiss⟩ :=
    (c2_validation_iff [⟨"e1", "aws_instance", []⟩] [] ⟨"aws", "us-east-1"⟩ (by decide)
      (by decide)).mp ⟨_, rfl⟩
  simp at hn
  subst hn
  exact hmiss

/-! ## C3: unknown node types abort compilation -/

lemma compileNodes_cons_ok (n : Node) (rest : List Node) (p : String × String)
    (h : compileNodes (n :: rest) = .ok p) :
    ∃ rc hcl q, lookupCompiler resourceCompilers n.type' = some rc ∧
      rc.validate n = none ∧ rc.compile n = .ok hcl ∧ compileNodes rest = .ok q := by
  cases hrc : lookupCompiler resourceCompilers n.type' with
  | none =>
    simp only [compileNodes, hrc] at h
    simp at h
  | some rc =>
    simp only [compileNodes, hrc] at h
    cases hv : rc.validate n with
    | some m =>
      simp only [hv] at h
      simp at h
    | none =>
      simp only [hv] at h
      cases hcmp : rc.compile n with
      | err m =>
        simp only [hcmp] at h
        simp at h
      | crash m =>
        simp only [hcmp] at h
        simp at h
      | ok hcl =>
        simp only [hcmp] at h
        cases hrest : compileNodes rest with
        | ok q => exact ⟨rc, hcl, q, rfl, hv, hcmp, rfl⟩
        | err e =>
          simp only [hrest] at h
          simp at h
        | crash m =>
          simp only [hrest] at h
          simp at h

lemma compileNodes_ok_all_supported : ∀ (ns : List Node) (p : String × String),
    compileNodes ns = .ok p →
    ∀ n ∈ ns, (lookupCompiler resourceCompilers n.type').isSome := by
  intro ns
  induction ns with
  | nil =>
    intro p h x hx
    simp at hx
  | cons n rest ih =>
    intro p h x hx
    obtain ⟨rc, hcl, q, hrc, hv, hcmp, hrest⟩ := compileNodes_cons_ok n rest p h
    rcases List.mem_cons.mp hx with rfl | hxr
    · simp [hrc]
    · exact ih q hrest x hxr

/-- A node that the per-node loop processes without aborting. -/
def nodeStepOk (n : Node) : Prop :=
  ∃ rc hcl, lookupCompiler resourceCompilers n.type' = some rc ∧
    rc.validate n = none ∧ rc.compile n = .ok hcl

lemma compileNodes_first_unknown : ∀ (pre : List Node) (u : Node) (rest : List Node),
    lookupCompiler resourceCompilers u.type' = none →
    (∀ n ∈ pre, nodeStepOk n) →
    compileNodes (pre ++ u :: rest) = .err ("unsupported resource type: " ++ u.type') := by
  intro pre
  induction pre with
  | nil =>
    intro u rest hu _
    simp [compileNodes, hu]
  | cons p pre' ih =>
    intro u rest hu hpre
    obtain ⟨rc, hcl, hrc, hv, hcmp⟩ := hpre p (by simp)
    have hrec := ih u rest hu (fun x hx => hpre x (by simp [hx]))
    simp [compileNodes, hrc, hv, hcmp, hrec]

/-- C3 counterexample. A graph whose unknown-typed node is preceded by an
instance node missing ami compiles to the validation error, not to the
unsupported-resource-type error the claim requires. -/
theorem c3_counterexample :
    Compile ⟨[⟨"e1", "aws_instance", []⟩, ⟨"u1", "foo", []⟩], []⟩ ⟨"aws", "us-east-1"⟩ =
      .err "validation failed for e1: missing required field: ami" ∧
    Compile ⟨[⟨"e1", "aws_instance", []⟩, ⟨"u1", "foo", []⟩], []⟩ ⟨"aws", "us-east-1"⟩ ≠
      .err "unsupported resource type: foo" ∧
    lookupCompiler resourceCompilers "foo" = none := by
  refine ⟨rfl, by decide, rfl⟩

lemma compileNodes_first_validation : ∀ (pre1 : List Node) (p : Node) (tail : List Node)
    (rc : ResourceCompiler) (msg : String),
    lookupCompiler resourceCompilers p.type' = some rc →
    rc.validate p = some msg →
    (∀ n ∈ pre1, nodeStepOk n) →
    compileNodes (pre1 ++ p :: tail) =
      .err ("validation failed for " ++ p.id ++ ": " ++ msg) := by
  intro pre1
  induction pre1 with
  | nil =>
    intro p tail rc msg hrc hv _
    simp [compileNodes, hrc, hv]
  | cons q pre' ih =>
    intro p tail rc msg hrc hv hpre
    obtain ⟨rcq, hclq, hrcq, hvq, hcmpq⟩ := hpre q (by simp)
    have hrec := ih p tail rc msg hrc hv (fun x hx => hpre x (by simp [hx]))
    simp [compileNodes, hrcq, hvq, hcmpq, hrec]

/-- C3 amended. A graph containing a node with no registered compiler
never compiles to a TerraformCode (no partial output). Whenever every
node before the first unknown-typed node validates and compiles cleanly,
the result is the unsupported-resource-type error for that node; and
whenever the nodes preceding some node compile cleanly but that node
itself fails validation, Compile returns that node's validation error
instead. -/
theorem c3_unknown_type (nodes : List Node) (edges : List Edge) (cfg : CloudConfig)
    (h : ∃ n ∈ nodes, lookupCompiler resourceCompilers n.type' = none) :
    (∀ tc, Compile ⟨nodes, edges⟩ cfg ≠ .ok tc) ∧
    (∀ pre u rest, nodes = pre ++ u :: rest →
      lookupCompiler resourceCompilers u.type' = none →
      (∀ n ∈ pre, nodeStepOk n) →
      Compile ⟨nodes, edges⟩ cfg = .err ("unsupported resource type: " ++ u.type')) ∧
    (∀ pre1 p rest1 rc msg, nodes = pre1 ++ p :: rest1 →
      lookupCompiler resourceCompilers p.type' = some rc →
      rc.validate p = some msg →
      (∀ n ∈ pre1, nodeStepOk n) →
      Compile ⟨nodes, edges⟩ cfg =
        .err ("validation failed for " ++ p.id ++ ": " ++ msg)) := by
  refine ⟨?_, ?_, ?_⟩
  · intro tc hc
    simp only [Compile] at hc
    cases hcn : compileNodes nodes with
    | ok p =>
      obtain ⟨x, hx, hxnone⟩ := h
      have := compileNodes_ok_all_supported nodes p hcn x hx
      simp [hxnone] at this
    | err e =>
      simp only [hcn] at hc
      simp at hc
    | crash m =>
      simp only [hcn] at hc
      simp at hc
  · intro pre u rest hsplit hu hpre
    subst hsplit
    simp [Compile, compileNodes_first_unknown pre u rest hu hpre]
  · intro pre1 p rest1 rc msg hsplit hrc hv hpre
    subst hsplit
    simp [Compile, compileNodes_first_validation pre1 p rest1 rc msg hrc hv hpre]

/-- Witness for C3 amended: a lone unknown-typed node yields the
unsupported-resource-type error, and an invalid instance node before the
unknown-typed node yields its validation error instead. -/
theorem c3_unknown_type_witness :
    Compile ⟨[⟨"u1", "foo", []⟩], []⟩ ⟨"aws", "us-east-1"⟩ =
      .err "unsupported resource type: foo" ∧
    Compile ⟨[⟨"e1", "aws_instance", []⟩, ⟨"u1", "foo", []⟩], []⟩ ⟨"aws", "us-east-1"⟩ =
      .err "validation failed for e1: missing required field: ami" :=
  ⟨(c3_unknown_type [⟨"u1", "foo", []⟩] [] ⟨"aws", "us-east-1"⟩
      ⟨⟨"u1", "foo", []⟩, by simp, rfl⟩).2.1
    [] ⟨"u1", "foo", []⟩ [] rfl rfl (by simp),
   (c3_unknown_type [⟨"e1", "aws_instance", []⟩, ⟨"u1", "foo", []⟩] [] ⟨"aws", "us-east-1"⟩
      ⟨⟨"u1", "foo", []⟩, by simp, rfl⟩).2.2
    [] ⟨"e1", "aws_instance", []⟩ [⟨"u1", "foo", []⟩] ⟨ec2Validate, ec2Compile⟩
    "missing required field: ami" rfl rfl rfl (by simp)⟩

end IaCStudio
